import Mathlib

/-!
Verification of the rocRAND benchmark-tuning registration engine and its timed
execution harness (`benchmark/tuning/benchmark_tuning.hpp` and
`benchmark/tuning/benchmarked_generators.hpp`), as a shallow embedding.

The compile-time template machinery of the source is embedded as executable
functions over explicit enumerations: output types, distributions, launch
shapes and tuning parameters become first-class data, the `if constexpr`
dispatch of `generator_benchmark_factory::add_benchmarks` becomes ordinary
branching, and the registered google-benchmark cases become a list of records.
-/

namespace BenchmarkTuning

/-- The fixed set of output element types the harness attempts to benchmark,
from `add_all_benchmarks_for_generator`: `unsigned int`, `unsigned char`,
`unsigned short`, `unsigned long long`, `float`, `half`, `double`. -/
inductive OutputType where
  | u32
  | u8
  | u16
  | u64
  | f32
  | half
  | f64
deriving DecidableEq, Repr, Fintype

/-- `sizeof(T)` for each output type (bytes). -/
def sizeof_output : OutputType → Nat
  | .u32 => 4
  | .u8 => 1
  | .u16 => 2
  | .u64 => 8
  | .f32 => 4
  | .half => 2
  | .f64 => 8

/-- `std::is_integral_v<T>` for the benchmarked output types. -/
def is_integral : OutputType → Bool
  | .u8 => true
  | .u16 => true
  | .u32 => true
  | .u64 => true
  | _ => false

/-- `std::is_floating_point_v<T>` for the benchmarked output types
(`half` is not a standard floating-point type, so it is `false` there). -/
def is_floating_point : OutputType → Bool
  | .f32 => true
  | .f64 => true
  | _ => false

/-- The distribution types that `add_benchmarks` can select:
`uniform_distribution<T>`, the two-parameter
`uniform_distribution<unsigned long long, unsigned long long>` used for the
`unsigned long long` output type, the alias-method
`rocrand_poisson_distribution<ROCRAND_DISCRETE_METHOD_ALIAS>`,
`normal_distribution<T>` and `log_normal_distribution<T>`. -/
inductive Distribution where
  | uniform (t : OutputType)
  | uniform_ullong_ullong
  | poisson_alias
  | normal (t : OutputType)
  | log_normal (t : OutputType)
deriving DecidableEq, Repr, Fintype

/-- The tuning configuration: the CMake-controlled
`thread_options`, `block_options` (from `BENCHMARK_TUNING_THREAD_OPTIONS` /
`BENCHMARK_TUNING_BLOCK_OPTIONS`) and `min_benchmarked_grid_size`
(from `BENCHMARK_TUNING_MIN_GRID_SIZE`), declared in the generated header
`benchmark_tuning_setup.hpp`; they are inputs fixed before enumeration. -/
structure TuningParams where
  thread_options : List Nat
  block_options : List Nat
  min_benchmarked_grid_size : Nat

/-- Modelled from the spec: `cpp_utils::numeric_combinations` of
`rng/cpp_utils.hpp` is not under `src/`.  Per the spec's combination
enumerator contract it is the cross product of the two option lists, outer
iteration over the first list in its given order, inner iteration over the
second, with duplicate shapes removed. -/
def numeric_combinations (threads blocks : List Nat) : List (Nat × Nat) :=
  (threads.product blocks).dedup

/-- `generator_benchmark_factory::s_param_combinations`: all
`{threads, blocks}` pairs that run for the benchmark tuning. -/
def s_param_combinations (p : TuningParams) : List (Nat × Nat) :=
  numeric_combinations p.thread_options p.block_options

/-- The launch shapes that survive the
`if constexpr(grid_size < min_benchmarked_grid_size) return;` guard of
`add_benchmarks_impl` — the spec's "CombinationSet". -/
def combination_set (p : TuningParams) : List (Nat × Nat) :=
  (s_param_combinations p).filter
    (fun c => decide (¬(c.1 * c.2 < p.min_benchmarked_grid_size)))

/-- A generator family (one instantiation of the `GeneratorTemplate`
template parameter): its engine name — `engine_name(rng_type)` in the source —
and its instantiation of the `output_type_supported` compatibility
predicate. -/
structure GeneratorFamily where
  engineName : String
  supported : OutputType → Bool

/-- The primary template `output_type_supported` of `benchmark_tuning.hpp`,
which derives from `std::true_type`: every output type defaults to
supported. -/
def output_type_supported_default : OutputType → Bool := fun _ => true

/-- The explicit specialization in `benchmarked_generators.hpp`:
`output_type_supported<unsigned long long, rocrand_xorwow_template>` derives
from `std::false_type`; every other type falls back to the primary
template. -/
def output_type_supported_xorwow : OutputType → Bool
  | .u64 => false
  | t => output_type_supported_default t

/-- The `rocrand_xorwow_template` generator family.  Modelled from the spec:
`engine_name` (from `benchmark_rocrand_utils.hpp`) is not under `src/`; it is
the fixed identifying name of the engine. -/
def xorwow_family : GeneratorFamily :=
  { engineName := "xorwow", supported := output_type_supported_xorwow }

/-- Modelled from the spec: `distribution_name` (from
`distribution_traits.hpp`) is not under `src/`.  Per the spec each
distribution descriptor carries a fixed identifying name string; the uniform
distribution is specialized per output width. -/
def distribution_name : Distribution → String
  | .uniform .u32 => "uniform_uint"
  | .uniform .u8 => "uniform_uchar"
  | .uniform .u16 => "uniform_ushort"
  | .uniform .u64 => "uniform_ulonglong"
  | .uniform .f32 => "uniform_float"
  | .uniform .half => "uniform_half"
  | .uniform .f64 => "uniform_double"
  | .uniform_ullong_ullong => "uniform_ullong"
  | .poisson_alias => "poisson"
  | .normal .u32 => "normal_uint"
  | .normal .u8 => "normal_uchar"
  | .normal .u16 => "normal_ushort"
  | .normal .u64 => "normal_ulonglong"
  | .normal .f32 => "normal_float"
  | .normal .half => "normal_half"
  | .normal .f64 => "normal_double"
  | .log_normal .u32 => "log_normal_uint"
  | .log_normal .u8 => "log_normal_uchar"
  | .log_normal .u16 => "log_normal_ushort"
  | .log_normal .u64 => "log_normal_ulonglong"
  | .log_normal .f32 => "log_normal_float"
  | .log_normal .half => "log_normal_half"
  | .log_normal .f64 => "log_normal_double"

/-- A digit character, `'0'` + `n`. -/
def digitChar (n : Nat) : Char := Char.ofNat (48 + n)

/-- The decimal digits of `n`, most significant first — the character
content of `std::to_string(n)` for an unsigned value. -/
def natDigits (n : Nat) : List Char :=
  if h : n < 10 then [digitChar n]
  else natDigits (n / 10) ++ [digitChar (n % 10)]
decreasing_by
  exact Nat.div_lt_self (by omega) (by omega)

/-- Model of `std::to_string` on unsigned values. -/
def to_string (n : Nat) : String := ⟨natDigits n⟩

/-- `generator_benchmark_factory::get_benchmark_name`:
`engine_name(rng_type) + "_" + distribution_name + "_t" + threads + "_b"
+ blocks`. -/
def get_benchmark_name (engine : String) (d : Distribution)
    (threads blocks : Nat) : String :=
  engine ++ "_" ++ distribution_name d ++ "_t" ++ to_string threads ++ "_b"
    ++ to_string blocks

/-- One registered benchmark case: the name string passed to
`benchmark::RegisterBenchmark` together with the parameters captured by value
in the registered closure. -/
structure RegisteredCase where
  name : String
  outType : OutputType
  dist : Distribution
  threads : Nat
  blocks : Nat
deriving DecidableEq, Repr

/-- The case that `add_benchmarks_impl` registers for one launch shape. -/
def mk_case (fam : GeneratorFamily) (t : OutputType) (d : Distribution)
    (shape : Nat × Nat) : RegisteredCase :=
  { name := get_benchmark_name fam.engineName d shape.1 shape.2
    outType := t
    dist := d
    threads := shape.1
    blocks := shape.2 }

/-- `generator_benchmark_factory::add_benchmarks_impl`: for every entry of
`s_param_combinations`, skip it when
`grid_size < min_benchmarked_grid_size`, otherwise register a case named by
`get_benchmark_name` whose closure captures the output type, the
shape-specialized generator and the distribution. -/
def add_benchmarks_impl (fam : GeneratorFamily) (p : TuningParams)
    (t : OutputType) (d : Distribution) : List RegisteredCase :=
  (s_param_combinations p).filterMap fun c =>
    if c.1 * c.2 < p.min_benchmarked_grid_size then none
    else some (mk_case fam t d c)

/-- The uniform distribution `add_benchmarks` selects for an integral output
type: `std::conditional_t<std::is_same_v<T, unsigned long long>,
uniform_distribution<unsigned long long, unsigned long long>,
uniform_distribution<T>>`. -/
def uniform_distribution_for (t : OutputType) : Distribution :=
  if t = .u64 then .uniform_ullong_ullong else .uniform t

/-- `generator_benchmark_factory::add_benchmarks<T>`: return nothing when
`output_type_supported` rejects the type; for integral types register the
width-specialized uniform distribution and, exactly for `unsigned int`, also
the alias-method Poisson distribution; for `float`, `double` and `half`
register uniform, normal and log-normal. -/
def add_benchmarks (fam : GeneratorFamily) (p : TuningParams)
    (t : OutputType) : List RegisteredCase :=
  if !(fam.supported t) then []
  else if is_integral t then
    add_benchmarks_impl fam p t (uniform_distribution_for t)
      ++ (if t = .u32 then add_benchmarks_impl fam p t .poisson_alias else [])
  else if is_floating_point t || t = .half then
    add_benchmarks_impl fam p t (.uniform t)
      ++ add_benchmarks_impl fam p t (.normal t)
      ++ add_benchmarks_impl fam p t (.log_normal t)
  else []

/-- The fixed order in which `add_all_benchmarks_for_generator` walks the
output types. -/
def output_type_order : List OutputType :=
  [.u32, .u8, .u16, .u64, .f32, .half, .f64]

/-- `add_all_benchmarks_for_generator`: instantiate the factory and call
`add_benchmarks` for `unsigned int`, `unsigned char`, `unsigned short`,
`unsigned long long`, `float`, `half`, `double`, in that order, appending to
the shared benchmark list. -/
def add_all_benchmarks_for_generator (fam : GeneratorFamily)
    (p : TuningParams) : List RegisteredCase :=
  add_benchmarks fam p .u32
    ++ add_benchmarks fam p .u8
    ++ add_benchmarks fam p .u16
    ++ add_benchmarks fam p .u64
    ++ add_benchmarks fam p .f32
    ++ add_benchmarks fam p .half
    ++ add_benchmarks fam p .f64

/-- The launch shape of a registered case. -/
def case_shape (c : RegisteredCase) : Nat × Nat := (c.threads, c.blocks)

/-- The pair that identifies a registered case besides the (per-family fixed)
engine name: its distribution and its launch shape. -/
def case_key (c : RegisteredCase) : Distribution × (Nat × Nat) :=
  (c.dist, case_shape c)

/-- The distribution set `add_benchmarks` selects for each output type when
the type is supported: the width-specialized uniform for integral types, plus
alias Poisson exactly for `unsigned int`; uniform, normal and log-normal for
`float`, `half` and `double`. -/
def dists_for : OutputType → List Distribution
  | .u32 => [.uniform .u32, .poisson_alias]
  | .u8 => [.uniform .u8]
  | .u16 => [.uniform .u16]
  | .u64 => [.uniform_ullong_ullong]
  | .f32 => [.uniform .f32, .normal .f32, .log_normal .f32]
  | .half => [.uniform .half, .normal .half, .log_normal .half]
  | .f64 => [.uniform .f64, .normal .f64, .log_normal .f64]

/-- The distributions actually registered for `(fam, t)`: none when the
compatibility predicate rejects the pair. -/
def dists_actual (fam : GeneratorFamily) (t : OutputType) : List Distribution :=
  if fam.supported t then dists_for t else []

/-- Decimal decoding, a left inverse of `natDigits`. -/
def decodeDigits (l : List Char) : Nat :=
  l.foldl (fun a c => 10 * a + (c.toNat - 48)) 0

/-- The part of a benchmark name contributed by the distribution, together
with the two characters that always follow it. -/
def dist_tag (d : Distribution) : List Char :=
  (distribution_name d).data ++ ['_', 't']

/-- Every value of `Distribution`. -/
def all_distributions : List Distribution :=
  [.uniform .u32, .uniform .u8, .uniform .u16, .uniform .u64,
   .uniform .f32, .uniform .half, .uniform .f64,
   .uniform_ullong_ullong, .poisson_alias,
   .normal .u32, .normal .u8, .normal .u16, .normal .u64,
   .normal .f32, .normal .half, .normal .f64,
   .log_normal .u32, .log_normal .u8, .log_normal .u16, .log_normal .u64,
   .log_normal .f32, .log_normal .half, .log_normal .f64]

/-! ### The timed execution harness (`run_benchmark`) -/

/-- Modelled from the spec: the `benchmark_config` type (declared outside
`src/`) carries the element count of the array generated per iteration. -/
structure benchmark_config where
  size : Nat
deriving DecidableEq, Repr

/-- The two timestamp events created by `run_benchmark`. -/
inductive EvId where
  | start
  | stop
deriving DecidableEq, Repr

/-- One device-runtime or reporting call issued by `run_benchmark`, in the
order the source performs them. -/
inductive DevOp where
  | malloc
  | setStream
  | generate
  | deviceSynchronize
  | eventCreate (e : EvId)
  | eventRecord (e : EvId)
  | eventSynchronize (e : EvId)
  | eventElapsedTime
  | setIterationTime
  | setBytesProcessed (v : Nat)
  | setItemsProcessed (v : Nat)
  | eventDestroy (e : EvId)
  | free
deriving DecidableEq, Repr

/-- The observable state of one `run_benchmark` execution: the call trace,
the index of the next checked call, and the tracked resources and reported
totals. -/
structure RunState where
  trace : List DevOp
  calls : Nat
  bufferAllocated : Bool
  bufferFreed : Bool
  eventsCreated : Nat
  eventsDestroyed : Nat
  iterationTimesReported : Nat
  bytesProcessed : Option Nat
  itemsProcessed : Option Nat
deriving DecidableEq, Repr

/-- The state before any call. -/
def initState : RunState := ⟨[], 0, false, false, 0, 0, 0, none, none⟩

/-- The effect of one successful call on the tracked resources. -/
def applyEff : DevOp → RunState → RunState
  | .malloc, s => { s with bufferAllocated := true }
  | .eventCreate _, s => { s with eventsCreated := s.eventsCreated + 1 }
  | .eventDestroy _, s => { s with eventsDestroyed := s.eventsDestroyed + 1 }
  | .free, s => { s with bufferFreed := true }
  | .setIterationTime, s =>
      { s with iterationTimesReported := s.iterationTimesReported + 1 }
  | .setBytesProcessed v, s => { s with bytesProcessed := some v }
  | .setItemsProcessed v, s => { s with itemsProcessed := some v }
  | _, s => s

/-- A call wrapped in `HIP_CHECK` / `ROCRAND_CHECK`.  Modelled from the
spec: the two macros live in `benchmark_rocrand_utils.hpp`, which is not
under `src/`; per the spec's failure semantics a non-success status stops
the case's execution immediately and surfaces the failure, so the call
either succeeds and performs its effect or aborts the run.  `env` says, per
checked-call index, whether the device runtime reports success. -/
def checkedCall (env : Nat → Bool) (op : DevOp) (s : RunState) :
    Except RunState RunState :=
  if env s.calls then
    .ok (applyEff op { s with trace := s.trace ++ [op], calls := s.calls + 1 })
  else
    .error { s with trace := s.trace ++ [op], calls := s.calls + 1 }

/-- A call whose status the source does not inspect
(`generator.set_stream`, `state.SetIterationTime`, `state.SetBytesProcessed`,
`state.SetItemsProcessed`). -/
def uncheckedCall (op : DevOp) (s : RunState) : RunState :=
  applyEff op { s with trace := s.trace ++ [op] }

/-- Short-circuiting sequencing: a failed checked call aborts the rest of
`run_benchmark`. -/
def andThen (r : Except RunState RunState)
    (f : RunState → Except RunState RunState) : Except RunState RunState :=
  match r with
  | .error s => .error s
  | .ok s => f s

/-- The measured loop `for(auto _ : state)` of `run_benchmark`: per
iteration, record the start event, generate, record the stop event,
synchronize on the stop event, read the elapsed time and report the
iteration's duration. -/
def bench_loop (env : Nat → Bool) : Nat → RunState → Except RunState RunState
  | 0, s => .ok s
  | Nat.succ m, s =>
    andThen (checkedCall env (.eventRecord .start) s) fun s =>
    andThen (checkedCall env .generate s) fun s =>
    andThen (checkedCall env (.eventRecord .stop) s) fun s =>
    andThen (checkedCall env (.eventSynchronize .stop) s) fun s =>
    andThen (checkedCall env .eventElapsedTime s) fun s =>
    bench_loop env m (uncheckedCall .setIterationTime s)

/-- `run_benchmark<T, Generator, Distribution>`: allocate the device buffer,
bind the stream, run one warm-up generate plus a device synchronization,
create the two events, run the measured loop for the requested number of
iterations, report the totals, then destroy the events and free the
buffer. -/
def run_benchmark (env : Nat → Bool) (iterations : Nat)
    (config : benchmark_config) (T : OutputType) :
    Except RunState RunState :=
  andThen (checkedCall env .malloc initState) fun s =>
  andThen (checkedCall env .generate (uncheckedCall .setStream s)) fun s =>
  andThen (checkedCall env .deviceSynchronize s) fun s =>
  andThen (checkedCall env (.eventCreate .start) s) fun s =>
  andThen (checkedCall env (.eventCreate .stop) s) fun s =>
  andThen (bench_loop env iterations s) fun s =>
  andThen (checkedCall env (.eventDestroy .stop)
    (uncheckedCall (.setItemsProcessed (iterations * config.size))
      (uncheckedCall
        (.setBytesProcessed (iterations * config.size * sizeof_output T))
        s))) fun s =>
  andThen (checkedCall env (.eventDestroy .start) s) fun s =>
  checkedCall env .free s

/-- The final state of a run, successful or aborted. -/
def stateOf : Except RunState RunState → RunState
  | .ok s => s
  | .error s => s

/-- Whether the run completed without a device failure. -/
def isOk : Except RunState RunState → Bool
  | .ok _ => true
  | .error _ => false

/-- The calls of one measured iteration, in order. -/
def iteration_ops : List DevOp :=
  [.eventRecord .start, .generate, .eventRecord .stop,
   .eventSynchronize .stop, .eventElapsedTime, .setIterationTime]

/-- The calls of `n` measured iterations. -/
def iterations_trace : Nat → List DevOp
  | 0 => []
  | Nat.succ m => iteration_ops ++ iterations_trace m

/-- The full call sequence of a successful run with `n` measured
iterations. -/
def expected_trace (n : Nat) (config : benchmark_config) (T : OutputType) :
    List DevOp :=
  [.malloc, .setStream, .generate, .deviceSynchronize,
   .eventCreate .start, .eventCreate .stop]
    ++ iterations_trace n
    ++ [.setBytesProcessed (n * config.size * sizeof_output T),
        .setItemsProcessed (n * config.size),
        .eventDestroy .stop, .eventDestroy .start, .free]

/-- An environment in which exactly the checked call of index `k` fails. -/
def fail_at (k : Nat) : Nat → Bool := fun i => !(i == k)

end BenchmarkTuning

namespace BenchmarkTuning

/-! ### Structural lemmas about the factory -/

theorem filterMap_guard_eq_filter_map {α β : Type} (l : List α)
    (g : α → Prop) [DecidablePred g] (f : α → β) :
    (l.filterMap fun c => if g c then none else some (f c))
      = (l.filter fun c => decide (¬ g c)).map f := by
  induction l with
  | nil => rfl
  | cons a l ih =>
    by_cases h : g a <;>
      simp [List.filterMap_cons, List.filter_cons, h, ih]

/-- `add_benchmarks_impl` registers the case of every retained shape, in
enumeration order. -/
theorem add_benchmarks_impl_eq_map (fam : GeneratorFamily) (p : TuningParams)
    (t : OutputType) (d : Distribution) :
    add_benchmarks_impl fam p t d = (combination_set p).map (mk_case fam t d) := by
  unfold add_benchmarks_impl combination_set
  exact filterMap_guard_eq_filter_map _ _ _

theorem mem_combination_set (p : TuningParams) (a b : Nat) :
    (a, b) ∈ combination_set p
      ↔ a ∈ p.thread_options ∧ b ∈ p.block_options
          ∧ p.min_benchmarked_grid_size ≤ a * b := by
  unfold combination_set s_param_combinations numeric_combinations
  simp [List.mem_filter, List.mem_dedup, List.pair_mem_product, Nat.not_lt,
    and_assoc]

theorem combination_set_nodup (p : TuningParams) :
    (combination_set p).Nodup := by
  unfold combination_set s_param_combinations numeric_combinations
  exact (List.nodup_dedup _).filter _

theorem case_shape_mk (fam : GeneratorFamily) (t : OutputType)
    (d : Distribution) (s : Nat × Nat) :
    case_shape (mk_case fam t d s) = s := by
  cases s
  rfl

theorem add_benchmarks_impl_shapes (fam : GeneratorFamily) (p : TuningParams)
    (t : OutputType) (d : Distribution) :
    (add_benchmarks_impl fam p t d).map case_shape = combination_set p := by
  rw [add_benchmarks_impl_eq_map, List.map_map]
  have h : case_shape ∘ mk_case fam t d = id := by
    funext s
    exact case_shape_mk fam t d s
  rw [h, List.map_id]

/-- `add_benchmarks` registers, for each selected distribution in order, one
case per retained launch shape. -/
theorem add_benchmarks_eq_flatMap (fam : GeneratorFamily) (p : TuningParams)
    (t : OutputType) :
    add_benchmarks fam p t
      = (dists_actual fam t).flatMap
          (fun d => (combination_set p).map (mk_case fam t d)) := by
  unfold add_benchmarks dists_actual
  cases h : fam.supported t <;> cases t <;>
    simp [add_benchmarks_impl_eq_map, is_integral, is_floating_point,
      uniform_distribution_for, dists_for]

theorem mem_add_benchmarks (fam : GeneratorFamily) (p : TuningParams)
    (t : OutputType) (c : RegisteredCase) :
    c ∈ add_benchmarks fam p t
      ↔ fam.supported t = true
          ∧ ∃ d ∈ dists_for t, ∃ s ∈ combination_set p, c = mk_case fam t d s := by
  rw [add_benchmarks_eq_flatMap]
  unfold dists_actual
  cases h : fam.supported t <;> simp [List.mem_flatMap, eq_comm]

theorem mem_add_benchmarks_outType (fam : GeneratorFamily) (p : TuningParams)
    (t : OutputType) (c : RegisteredCase) (hc : c ∈ add_benchmarks fam p t) :
    c.outType = t := by
  rw [mem_add_benchmarks] at hc
  obtain ⟨-, d, -, s, -, rfl⟩ := hc
  rfl

theorem mem_add_benchmarks_dist (fam : GeneratorFamily) (p : TuningParams)
    (t : OutputType) (c : RegisteredCase) (hc : c ∈ add_benchmarks fam p t) :
    c.dist ∈ dists_for t := by
  rw [mem_add_benchmarks] at hc
  obtain ⟨-, d, hd, s, -, rfl⟩ := hc
  exact hd

theorem map_case_shape_mk (fam : GeneratorFamily) (t : OutputType)
    (d : Distribution) (s : List (Nat × Nat)) :
    (s.map (mk_case fam t d)).map case_shape = s := by
  rw [List.map_map]
  have h : case_shape ∘ mk_case fam t d = id := by
    funext x
    exact case_shape_mk fam t d x
  rw [h, List.map_id]

theorem map_comp_case_shape_mk (fam : GeneratorFamily) (t : OutputType)
    (d : Distribution) (s : List (Nat × Nat)) :
    s.map (case_shape ∘ mk_case fam t d) = s := by
  have h : case_shape ∘ mk_case fam t d = id := by
    funext x
    exact case_shape_mk fam t d x
  rw [h, List.map_id]

theorem filter_dist_map_mk (fam : GeneratorFamily) (t : OutputType)
    (d d' : Distribution) (s : List (Nat × Nat)) :
    ((s.map (mk_case fam t d)).filter fun c => c.dist == d')
      = if d = d' then s.map (mk_case fam t d) else [] := by
  induction s with
  | nil => simp
  | cons a s ih =>
    simp only [List.map_cons, List.filter_cons]
    by_cases h : d = d'
    · subst h
      simp [mk_case, ih]
    · simp [mk_case, h, ih]

/-! ### Claim C1 -/

/-- C1: For every thread-options list, block-options list and minimum grid
size, the launch shapes for which `add_benchmarks_impl` registers cases are
exactly the pairs of the cross product of the two option lists whose product
`threads * blocks` reaches the threshold, with duplicate shapes removed, and
no pair outside that cross product appears. -/
theorem combination_set_spec (fam : GeneratorFamily) (p : TuningParams)
    (t : OutputType) (d : Distribution) :
    (add_benchmarks_impl fam p t d).map case_shape = combination_set p
      ∧ (∀ a b : Nat,
          (a, b) ∈ combination_set p
            ↔ a ∈ p.thread_options ∧ b ∈ p.block_options
                ∧ p.min_benchmarked_grid_size ≤ a * b)
      ∧ (combination_set p).Nodup :=
  ⟨add_benchmarks_impl_shapes fam p t d,
   fun a b => mem_combination_set p a b,
   combination_set_nodup p⟩

/-! ### Claim C2 -/

theorem add_benchmarks_nil_of_unsupported (fam : GeneratorFamily)
    (p : TuningParams) (t : OutputType) (h : fam.supported t = false) :
    add_benchmarks fam p t = [] := by
  unfold add_benchmarks
  simp [h]

/-- C2: when the compatibility predicate `output_type_supported` rejects an
output type for a generator family, `add_benchmarks` registers no case at
all: the benchmark list receives nothing and no error is raised. -/
theorem unsupported_type_registers_nothing (fam : GeneratorFamily)
    (p : TuningParams) (t : OutputType) (h : fam.supported t = false) :
    add_benchmarks fam p t = [] :=
  add_benchmarks_nil_of_unsupported fam p t h

/-- Witness for C2 at the concrete pair declared unsupported in
`benchmarked_generators.hpp`: xorwow with `unsigned long long`. -/
theorem unsupported_type_registers_nothing_witness :
    xorwow_family.supported .u64 = false
      ∧ add_benchmarks xorwow_family ⟨[64, 128], [8], 512⟩ .u64 = [] :=
  ⟨rfl, unsupported_type_registers_nothing xorwow_family ⟨[64, 128], [8], 512⟩
    .u64 rfl⟩

/-! ### Claim C3 -/

/-- C3: for `unsigned int` on a compatible family, the alias Poisson
distribution is registered exactly once per retained launch shape, besides
the uniform distribution; for the other integral output types every
registered case carries only the width-specialized uniform distribution and
Poisson never appears. -/
theorem poisson_exactly_for_u32 (fam : GeneratorFamily) (p : TuningParams)
    (h : fam.supported .u32 = true) :
    ((add_benchmarks fam p .u32).filter
        (fun c => c.dist == .poisson_alias)).map case_shape = combination_set p
      ∧ ((add_benchmarks fam p .u32).filter
          (fun c => c.dist == .uniform .u32)).map case_shape = combination_set p
      ∧ (combination_set p).Nodup
      ∧ ((add_benchmarks fam p .u8).all fun c => c.dist == .uniform .u8) = true
      ∧ ((add_benchmarks fam p .u16).all fun c => c.dist == .uniform .u16) = true
      ∧ ((add_benchmarks fam p .u64).all
          fun c => c.dist == .uniform_ullong_ullong) = true := by
  refine ⟨?_, ?_, combination_set_nodup p, ?_, ?_, ?_⟩
  · simp [add_benchmarks_eq_flatMap, dists_actual, h, dists_for,
      List.filter_append, filter_dist_map_mk, map_case_shape_mk,
      map_comp_case_shape_mk]
  · simp [add_benchmarks_eq_flatMap, dists_actual, h, dists_for,
      List.filter_append, filter_dist_map_mk, map_case_shape_mk,
      map_comp_case_shape_mk]
  all_goals
    rw [List.all_eq_true]
    intro c hc
    have hd := mem_add_benchmarks_dist _ _ _ _ hc
    simp [dists_for] at hd
    simp [hd]

/-- Witness for C3 at the xorwow family and a concrete tuning
configuration. -/
theorem poisson_exactly_for_u32_witness :
    xorwow_family.supported .u32 = true
      ∧ ((add_benchmarks xorwow_family ⟨[64, 128], [8], 512⟩ .u32).filter
          (fun c => c.dist == .poisson_alias)).map case_shape
            = combination_set ⟨[64, 128], [8], 512⟩ :=
  ⟨rfl, (poisson_exactly_for_u32 xorwow_family ⟨[64, 128], [8], 512⟩ rfl).1⟩

/-! ### Claim C4 -/

theorem float_block_spec (fam : GeneratorFamily) (p : TuningParams)
    (t : OutputType) (h : fam.supported t = true)
    (hd : dists_for t = [.uniform t, .normal t, .log_normal t]) :
    (add_benchmarks fam p t).length = 3 * (combination_set p).length
      ∧ ((add_benchmarks fam p t).filter
          (fun c => c.dist == .uniform t)).map case_shape = combination_set p
      ∧ ((add_benchmarks fam p t).filter
          (fun c => c.dist == .normal t)).map case_shape = combination_set p
      ∧ ((add_benchmarks fam p t).filter
          (fun c => c.dist == .log_normal t)).map case_shape = combination_set p
      ∧ ((add_benchmarks fam p t).all fun c =>
          c.dist == .uniform t || c.dist == .normal t
            || c.dist == .log_normal t) = true := by
  refine ⟨?_, ?_, ?_, ?_, ?_⟩
  · simp [add_benchmarks_eq_flatMap, dists_actual, h, hd]
    ring
  · simp [add_benchmarks_eq_flatMap, dists_actual, h, hd,
      List.filter_append, filter_dist_map_mk, map_case_shape_mk,
      map_comp_case_shape_mk]
  · simp [add_benchmarks_eq_flatMap, dists_actual, h, hd,
      List.filter_append, filter_dist_map_mk, map_case_shape_mk,
      map_comp_case_shape_mk]
  · simp [add_benchmarks_eq_flatMap, dists_actual, h, hd,
      List.filter_append, filter_dist_map_mk, map_case_shape_mk,
      map_comp_case_shape_mk]
  · rw [List.all_eq_true]
    intro c hc
    have hdist := mem_add_benchmarks_dist _ _ _ _ hc
    rw [hd] at hdist
    simp only [List.mem_cons, List.not_mem_nil, or_false] at hdist
    rcases hdist with h1 | h1 | h1 <;> simp [h1]

/-- C4: for every floating-point output type (`float`, `double`, `half`) on
a compatible family, `add_benchmarks` registers exactly the uniform, normal
and log-normal distributions once per retained launch shape — `3 × |combination
set|` cases, no more and no fewer. -/
theorem float_types_three_distributions (fam : GeneratorFamily)
    (p : TuningParams) (t : OutputType)
    (hf : (t == OutputType.f32 || t == OutputType.f64
      || t == OutputType.half) = true)
    (h : fam.supported t = true) :
    (add_benchmarks fam p t).length = 3 * (combination_set p).length
      ∧ ((add_benchmarks fam p t).filter
          (fun c => c.dist == .uniform t)).map case_shape = combination_set p
      ∧ ((add_benchmarks fam p t).filter
          (fun c => c.dist == .normal t)).map case_shape = combination_set p
      ∧ ((add_benchmarks fam p t).filter
          (fun c => c.dist == .log_normal t)).map case_shape = combination_set p
      ∧ ((add_benchmarks fam p t).all fun c =>
          c.dist == .uniform t || c.dist == .normal t
            || c.dist == .log_normal t) = true := by
  cases t <;> first
    | exact absurd hf (by decide)
    | exact float_block_spec fam p _ h rfl

/-- Witness for C4 at the xorwow family, the `float` output type and a
concrete tuning configuration. -/
theorem float_types_three_distributions_witness :
    ((OutputType.f32 == OutputType.f32 || OutputType.f32 == OutputType.f64
        || OutputType.f32 == OutputType.half) = true)
      ∧ xorwow_family.supported .f32 = true
      ∧ (add_benchmarks xorwow_family ⟨[64, 128], [8], 512⟩ .f32).length
          = 3 * (combination_set ⟨[64, 128], [8], 512⟩).length :=
  ⟨rfl, rfl,
    (float_types_three_distributions xorwow_family ⟨[64, 128], [8], 512⟩
      .f32 rfl rfl).1⟩

/-! ### Claim C9 -/

theorem driver_eq_flatMap (fam : GeneratorFamily) (p : TuningParams) :
    add_all_benchmarks_for_generator fam p
      = output_type_order.flatMap (add_benchmarks fam p) := by
  unfold add_all_benchmarks_for_generator output_type_order
  simp

/-- C9: the driver entry point walks the fixed output-type set in exactly
the order `unsigned int`, `unsigned char`, `unsigned short`,
`unsigned long long`, `float`, `half`, `double`, so the registered cases are
grouped by output type in that order. -/
theorem driver_fixed_output_type_order (fam : GeneratorFamily)
    (p : TuningParams) :
    add_all_benchmarks_for_generator fam p
        = output_type_order.flatMap (add_benchmarks fam p)
      ∧ (output_type_order.all fun t =>
          (add_benchmarks fam p t).all fun c => c.outType == t) = true := by
  constructor
  · exact driver_eq_flatMap fam p
  · rw [List.all_eq_true]
    intro t ht
    rw [List.all_eq_true]
    intro c hc
    have := mem_add_benchmarks_outType fam p t c hc
    simp [this]

/-! ### Claim C10 -/

/-- C10: the xorwow family explicitly declares `unsigned long long`
unsupported — the only deviation from the always-true primary template — so
the driver registers zero `unsigned long long` cases for xorwow. -/
theorem xorwow_u64_unsupported (p : TuningParams) :
    output_type_supported_xorwow .u64 = false
      ∧ (∀ t : OutputType,
          output_type_supported_xorwow t = !(t == OutputType.u64))
      ∧ (∀ t : OutputType, output_type_supported_default t = true)
      ∧ ((add_all_benchmarks_for_generator xorwow_family p).all
          fun c => !(c.outType == OutputType.u64)) = true := by
  refine ⟨rfl, ?_, fun t => rfl, ?_⟩
  · intro t
    cases t <;> rfl
  · rw [List.all_eq_true]
    intro c hc
    unfold add_all_benchmarks_for_generator at hc
    simp only [List.mem_append] at hc
    rcases hc with ((((((h | h) | h) | h) | h) | h) | h)
    · have := mem_add_benchmarks_outType _ _ _ _ h
      simp [this]
    · have := mem_add_benchmarks_outType _ _ _ _ h
      simp [this]
    · have := mem_add_benchmarks_outType _ _ _ _ h
      simp [this]
    · rw [add_benchmarks_nil_of_unsupported xorwow_family p OutputType.u64
        rfl] at h
      exact absurd h (List.not_mem_nil c)
    · have := mem_add_benchmarks_outType _ _ _ _ h
      simp [this]
    · have := mem_add_benchmarks_outType _ _ _ _ h
      simp [this]
    · have := mem_add_benchmarks_outType _ _ _ _ h
      simp [this]

/-! ### Decimal digits of benchmark names -/

theorem digitChar_ne_underscore (k : Nat) (h : k < 10) : digitChar k ≠ '_' := by
  unfold digitChar
  interval_cases k <;> decide

theorem digitChar_toNat (k : Nat) (h : k < 10) :
    (digitChar k).toNat = 48 + k := by
  unfold digitChar
  interval_cases k <;> decide

theorem natDigits_ne_underscore (n : Nat) : ∀ c ∈ natDigits n, c ≠ '_' := by
  induction n using Nat.strong_induction_on with
  | _ n ih =>
    rw [natDigits]
    split
    · intro c hc
      simp only [List.mem_singleton] at hc
      subst hc
      exact digitChar_ne_underscore n (by omega)
    · intro c hc
      rw [List.mem_append] at hc
      rcases hc with hc | hc
      · exact ih (n / 10) (Nat.div_lt_self (by omega) (by omega)) c hc
      · simp only [List.mem_singleton] at hc
        subst hc
        exact digitChar_ne_underscore _ (Nat.mod_lt _ (by omega))

theorem decode_natDigits (n : Nat) : decodeDigits (natDigits n) = n := by
  induction n using Nat.strong_induction_on with
  | _ n ih =>
    rw [natDigits]
    split
    · rename_i h
      unfold decodeDigits
      simp [List.foldl_cons, digitChar_toNat n h]
    · rename_i h
      unfold decodeDigits
      rw [List.foldl_append]
      have ihn := ih (n / 10) (Nat.div_lt_self (by omega) (by omega))
      unfold decodeDigits at ihn
      rw [ihn]
      simp only [List.foldl_cons, List.foldl_nil]
      rw [digitChar_toNat _ (Nat.mod_lt _ (by omega))]
      omega

theorem natDigits_inj (a b : Nat) (h : natDigits a = natDigits b) : a = b := by
  have ha := decode_natDigits a
  rw [h, decode_natDigits] at ha
  omega

/-- Splitting a concatenation at the first underscore: if neither prefix
contains an underscore, the two sides agree componentwise. -/
theorem underscore_split (d1 : List Char) :
    ∀ (d2 r1 r2 : List Char), (∀ c ∈ d1, c ≠ '_') → (∀ c ∈ d2, c ≠ '_') →
      d1 ++ '_' :: r1 = d2 ++ '_' :: r2 → d1 = d2 ∧ r1 = r2 := by
  induction d1 with
  | nil =>
    intro d2 r1 r2 _ h2 h
    cases d2 with
    | nil => simpa using h
    | cons y d2 =>
      rw [List.nil_append, List.cons_append, List.cons.injEq] at h
      exact absurd h.1.symm (h2 y (by simp))
  | cons x d1 ih =>
    intro d2 r1 r2 h1 h2 h
    cases d2 with
    | nil =>
      rw [List.nil_append, List.cons_append, List.cons.injEq] at h
      exact absurd h.1 (h1 x (by simp))
    | cons y d2 =>
      rw [List.cons_append, List.cons_append, List.cons.injEq] at h
      have hrec := ih d2 r1 r2 (fun c hc => h1 c (by simp [hc]))
        (fun c hc => h2 c (by simp [hc])) h.2
      exact ⟨by rw [h.1, hrec.1], hrec.2⟩

/-! ### String plumbing -/

theorem string_data_append (s t : String) :
    (s ++ t).data = s.data ++ t.data := by
  cases s
  cases t
  rfl

theorem string_eq_of_data {s t : String} (h : s.data = t.data) : s = t := by
  cases s
  cases t
  simp only at h
  rw [h]

theorem get_benchmark_name_data (e : String) (d : Distribution)
    (tn bn : Nat) :
    (get_benchmark_name e d tn bn).data
      = e.data ++ '_' :: (dist_tag d
          ++ (natDigits tn ++ '_' :: 'b' :: natDigits bn)) := by
  unfold get_benchmark_name to_string dist_tag
  simp only [string_data_append, List.append_assoc]
  rfl

theorem isPrefixOf_append_self (l m : List Char) :
    l.isPrefixOf (l ++ m) = true := by
  induction l with
  | nil => simp [List.isPrefixOf]
  | cons a l ih => simp [List.isPrefixOf, ih]

/-- Every distribution value is enumerated. -/
theorem mem_all_distributions (d : Distribution) : d ∈ all_distributions := by
  cases d with
  | uniform t => cases t <;> decide
  | uniform_ullong_ullong => decide
  | poisson_alias => decide
  | normal t => cases t <;> decide
  | log_normal t => cases t <;> decide

/-- No distribution's tag (its name followed by `"_t"`) is a prefix of
another distribution's tag: the names are fixed distinct strings none of
which extends another. -/
theorem dist_tag_check :
    (all_distributions.all fun d1 => all_distributions.all fun d2 =>
      d1 == d2 || !((dist_tag d1).isPrefixOf (dist_tag d2))) = true := by
  decide

theorem dist_tag_unambiguous (d1 d2 : Distribution)
    (h : (dist_tag d1).isPrefixOf (dist_tag d2) = true) : d1 = d2 := by
  have hall := dist_tag_check
  rw [List.all_eq_true] at hall
  have h1 := hall d1 (mem_all_distributions d1)
  rw [List.all_eq_true] at h1
  have h2 := h1 d2 (mem_all_distributions d2)
  rw [Bool.or_eq_true] at h2
  rcases h2 with h2 | h2
  · exact eq_of_beq h2
  · rw [h] at h2
    exact absurd h2 (by decide)

theorem dist_tag_inj_of_append (d1 d2 : Distribution) (r1 r2 : List Char)
    (h : dist_tag d1 ++ r1 = dist_tag d2 ++ r2) : d1 = d2 := by
  rcases List.append_eq_append_iff.mp h with ⟨m, hm, -⟩ | ⟨m, hm, -⟩
  · exact dist_tag_unambiguous d1 d2 (hm ▸ isPrefixOf_append_self _ _)
  · exact (dist_tag_unambiguous d2 d1 (hm ▸ isPrefixOf_append_self _ _)).symm

/-- Benchmark names are injective in (distribution, threads, blocks) for a
fixed engine name. -/
theorem get_benchmark_name_inj (e : String) (d1 d2 : Distribution)
    (t1 b1 t2 b2 : Nat)
    (h : get_benchmark_name e d1 t1 b1 = get_benchmark_name e d2 t2 b2) :
    d1 = d2 ∧ t1 = t2 ∧ b1 = b2 := by
  have hd := congrArg String.data h
  rw [get_benchmark_name_data, get_benchmark_name_data] at hd
  have h1 := List.append_cancel_left hd
  rw [List.cons.injEq] at h1
  have h2 := h1.2
  have hdd : d1 = d2 := dist_tag_inj_of_append d1 d2 _ _ h2
  subst hdd
  have h3 := List.append_cancel_left h2
  have h4 := underscore_split (natDigits t1) (natDigits t2)
    ('b' :: natDigits b1) ('b' :: natDigits b2)
    (natDigits_ne_underscore t1) (natDigits_ne_underscore t2) h3
  have h5 := h4.2
  rw [List.cons.injEq] at h5
  exact ⟨rfl, natDigits_inj _ _ h4.1, natDigits_inj _ _ h5.2⟩

/-! ### Uniqueness of the registered keys -/

theorem case_key_mk (fam : GeneratorFamily) (t : OutputType)
    (d : Distribution) (s : Nat × Nat) :
    case_key (mk_case fam t d s) = (d, s) := by
  cases s
  rfl

theorem keys_add_benchmarks (fam : GeneratorFamily) (p : TuningParams)
    (t : OutputType) :
    (add_benchmarks fam p t).map case_key
      = (dists_actual fam t).product (combination_set p) := by
  rw [add_benchmarks_eq_flatMap]
  rw [List.map_flatMap]
  show _ = (dists_actual fam t).flatMap
    fun d => (combination_set p).map (Prod.mk d)
  congr 1
  funext d
  rw [List.map_map]
  exact List.map_congr_left fun x _ => case_key_mk fam t d x

theorem dists_for_nodup (t : OutputType) : (dists_for t).Nodup := by
  cases t <;> decide

theorem dists_actual_nodup (fam : GeneratorFamily) (t : OutputType) :
    (dists_actual fam t).Nodup := by
  unfold dists_actual
  split
  · exact dists_for_nodup t
  · exact List.nodup_nil

theorem dists_actual_subset (fam : GeneratorFamily) (t : OutputType)
    (d : Distribution) (h : d ∈ dists_actual fam t) : d ∈ dists_for t := by
  unfold dists_actual at h
  split at h
  · exact h
  · exact absurd h (List.not_mem_nil d)

/-- Distribution pools of distinct output types never overlap: the selected
distribution always records the output type it was selected for. -/
theorem dists_for_disjoint :
    ∀ (t1 t2 : OutputType), t1 ≠ t2 →
      ∀ d : Distribution, ¬(d ∈ dists_for t1 ∧ d ∈ dists_for t2) := by
  decide

theorem keys_add_benchmarks_nodup (fam : GeneratorFamily) (p : TuningParams)
    (t : OutputType) : ((add_benchmarks fam p t).map case_key).Nodup := by
  rw [keys_add_benchmarks]
  exact List.Nodup.product (dists_actual_nodup fam t) (combination_set_nodup p)

theorem keys_disjoint (fam : GeneratorFamily) (p : TuningParams)
    (t1 t2 : OutputType) (h : t1 ≠ t2) :
    ((add_benchmarks fam p t1).map case_key).Disjoint
      ((add_benchmarks fam p t2).map case_key) := by
  rw [keys_add_benchmarks, keys_add_benchmarks]
  intro k hk1 hk2
  obtain ⟨d, sh⟩ := k
  rw [List.pair_mem_product] at hk1 hk2
  exact dists_for_disjoint t1 t2 h d
    ⟨dists_actual_subset fam t1 d hk1.1, dists_actual_subset fam t2 d hk2.1⟩

theorem output_type_order_nodup : output_type_order.Nodup := by decide

theorem keys_driver_nodup (fam : GeneratorFamily) (p : TuningParams) :
    ((add_all_benchmarks_for_generator fam p).map case_key).Nodup := by
  rw [driver_eq_flatMap, List.map_flatMap, List.nodup_flatMap]
  constructor
  · intro t _
    exact keys_add_benchmarks_nodup fam p t
  · exact output_type_order_nodup.imp fun hne => keys_disjoint fam p _ _ hne

theorem name_of_mem_add_benchmarks (fam : GeneratorFamily) (p : TuningParams)
    (t : OutputType) (c : RegisteredCase) (hc : c ∈ add_benchmarks fam p t) :
    c.name = get_benchmark_name fam.engineName c.dist c.threads c.blocks := by
  rw [mem_add_benchmarks] at hc
  obtain ⟨-, d, -, sh, -, rfl⟩ := hc
  rfl

theorem name_of_mem_driver (fam : GeneratorFamily) (p : TuningParams)
    (c : RegisteredCase) (hc : c ∈ add_all_benchmarks_for_generator fam p) :
    c.name = get_benchmark_name fam.engineName c.dist c.threads c.blocks := by
  rw [driver_eq_flatMap, List.mem_flatMap] at hc
  obtain ⟨t, -, hc⟩ := hc
  exact name_of_mem_add_benchmarks fam p t c hc

theorem case_key_eq_of_name_eq (e : String) (a c : RegisteredCase)
    (ha : a.name = get_benchmark_name e a.dist a.threads a.blocks)
    (hc : c.name = get_benchmark_name e c.dist c.threads c.blocks)
    (h : c.name = a.name) : case_key c = case_key a := by
  rw [ha, hc] at h
  have h1 := get_benchmark_name_inj e c.dist a.dist c.threads c.blocks
    a.threads a.blocks h
  unfold case_key case_shape
  rw [h1.1, h1.2.1, h1.2.2]

theorem nodup_names_of_nodup_keys (e : String) (l : List RegisteredCase)
    (hname : ∀ c ∈ l, c.name = get_benchmark_name e c.dist c.threads c.blocks)
    (hkeys : (l.map case_key).Nodup) :
    (l.map fun c => c.name).Nodup := by
  induction l with
  | nil => simp
  | cons a l ih =>
    rw [List.map_cons, List.nodup_cons] at hkeys ⊢
    refine ⟨?_, ih (fun c hc => hname c (List.mem_cons_of_mem a hc)) hkeys.2⟩
    intro hmem
    rw [List.mem_map] at hmem
    obtain ⟨c, hc, hcname⟩ := hmem
    have hkey := case_key_eq_of_name_eq e a c
      (hname a (List.mem_cons_self a l))
      (hname c (List.mem_cons_of_mem a hc)) hcname
    exact hkeys.1 (List.mem_map.mpr ⟨c, hc, hkey⟩)

/-! ### Claim C5 -/

/-- C5: for a fixed generator family, no two cases registered across all
output types, distributions and launch shapes carry the same name string
`<engineName>_<distributionName>_t<threads>_b<blocks>`. -/
theorem registered_names_unique (fam : GeneratorFamily) (p : TuningParams) :
    ((add_all_benchmarks_for_generator fam p).map fun c => c.name).Nodup :=
  nodup_names_of_nodup_keys fam.engineName _
    (fun c hc => name_of_mem_driver fam p c hc)
    (keys_driver_nodup fam p)

/-! ### Execution-harness lemmas -/

theorem andThen_ok {r : Except RunState RunState}
    {f : RunState → Except RunState RunState} {out : RunState}
    (h : andThen r f = .ok out) : ∃ s, r = .ok s ∧ f s = .ok out := by
  cases r with
  | error s => exact absurd h (by simp [andThen])
  | ok s => exact ⟨s, rfl, h⟩

theorem andThen_error {r : Except RunState RunState}
    {f : RunState → Except RunState RunState} {out : RunState}
    (h : andThen r f = .error out) :
    r = .error out ∨ ∃ s, r = .ok s ∧ f s = .error out := by
  cases r with
  | error s => exact Or.inl h
  | ok s => exact Or.inr ⟨s, rfl, h⟩

theorem checkedCall_ok {env : Nat → Bool} {op : DevOp} {s out : RunState}
    (h : checkedCall env op s = .ok out) :
    env s.calls = true
      ∧ out = applyEff op
          { s with trace := s.trace ++ [op], calls := s.calls + 1 } := by
  unfold checkedCall at h
  by_cases henv : env s.calls = true
  · rw [if_pos henv] at h
    injection h with h
    exact ⟨henv, h.symm⟩
  · rw [if_neg henv] at h
    exact absurd h (by simp)

theorem checkedCall_error {env : Nat → Bool} {op : DevOp} {s out : RunState}
    (h : checkedCall env op s = .error out) :
    out = { s with trace := s.trace ++ [op], calls := s.calls + 1 } := by
  unfold checkedCall at h
  by_cases henv : env s.calls = true
  · rw [if_pos henv] at h
    exact absurd h (by simp)
  · rw [if_neg henv] at h
    injection h with h
    exact h.symm

theorem bench_loop_ok (env : Nat → Bool) (n : Nat) :
    ∀ (s s' : RunState), bench_loop env n s = .ok s' →
      s'.trace = s.trace ++ iterations_trace n
        ∧ s'.bufferAllocated = s.bufferAllocated
        ∧ s'.bufferFreed = s.bufferFreed
        ∧ s'.eventsCreated = s.eventsCreated
        ∧ s'.eventsDestroyed = s.eventsDestroyed
        ∧ s'.bytesProcessed = s.bytesProcessed
        ∧ s'.itemsProcessed = s.itemsProcessed
        ∧ s'.iterationTimesReported = s.iterationTimesReported + n := by
  induction n with
  | zero =>
    intro s s' h
    unfold bench_loop at h
    injection h with h
    subst h
    simp [iterations_trace]
  | succ m ih =>
    intro s s' h
    unfold bench_loop at h
    obtain ⟨s1, h1, h⟩ := andThen_ok h
    obtain ⟨-, rfl⟩ := checkedCall_ok h1
    obtain ⟨s2, h2, h⟩ := andThen_ok h
    obtain ⟨-, rfl⟩ := checkedCall_ok h2
    obtain ⟨s3, h3, h⟩ := andThen_ok h
    obtain ⟨-, rfl⟩ := checkedCall_ok h3
    obtain ⟨s4, h4, h⟩ := andThen_ok h
    obtain ⟨-, rfl⟩ := checkedCall_ok h4
    obtain ⟨s5, h5, h⟩ := andThen_ok h
    obtain ⟨-, rfl⟩ := checkedCall_ok h5
    have hrec := ih _ _ h
    simp only [applyEff, uncheckedCall] at hrec
    simp only [hrec.1, hrec.2.1, hrec.2.2.1, hrec.2.2.2.1, hrec.2.2.2.2.1,
      hrec.2.2.2.2.2.1, hrec.2.2.2.2.2.2.1, hrec.2.2.2.2.2.2.2,
      iterations_trace, iteration_ops]
    exact ⟨by simp, trivial, trivial, trivial, trivial, trivial, trivial,
      by omega⟩

theorem run_ok_char (env : Nat → Bool) (n : Nat) (config : benchmark_config)
    (T : OutputType) (s : RunState)
    (h : run_benchmark env n config T = .ok s) :
    s.trace = expected_trace n config T
      ∧ s.bufferAllocated = true
      ∧ s.bufferFreed = true
      ∧ s.eventsCreated = 2
      ∧ s.eventsDestroyed = 2
      ∧ s.bytesProcessed = some (n * config.size * sizeof_output T)
      ∧ s.itemsProcessed = some (n * config.size)
      ∧ s.iterationTimesReported = n := by
  unfold run_benchmark at h
  obtain ⟨s1, h1, h⟩ := andThen_ok h
  obtain ⟨-, rfl⟩ := checkedCall_ok h1
  obtain ⟨s2, h2, h⟩ := andThen_ok h
  obtain ⟨-, rfl⟩ := checkedCall_ok h2
  obtain ⟨s3, h3, h⟩ := andThen_ok h
  obtain ⟨-, rfl⟩ := checkedCall_ok h3
  obtain ⟨s4, h4, h⟩ := andThen_ok h
  obtain ⟨-, rfl⟩ := checkedCall_ok h4
  obtain ⟨s5, h5, h⟩ := andThen_ok h
  obtain ⟨-, rfl⟩ := checkedCall_ok h5
  obtain ⟨s6, h6, h⟩ := andThen_ok h
  have hloop := bench_loop_ok env n _ _ h6
  obtain ⟨ht, ha, hf, hc, hd, hb, hi, hr⟩ := hloop
  obtain ⟨s7, h7, h⟩ := andThen_ok h
  obtain ⟨-, rfl⟩ := checkedCall_ok h7
  obtain ⟨s8, h8, h⟩ := andThen_ok h
  obtain ⟨-, rfl⟩ := checkedCall_ok h8
  obtain ⟨-, rfl⟩ := checkedCall_ok h
  simp only [applyEff, uncheckedCall, initState] at ht ha hf hc hd hb hi hr ⊢
  simp [ht, ha, hf, hc, hd, hb, hi, hr, expected_trace]

theorem bench_loop_error_freed (env : Nat → Bool) (n : Nat) :
    ∀ (s s' : RunState), bench_loop env n s = .error s' →
      s'.bufferFreed = s.bufferFreed := by
  induction n with
  | zero =>
    intro s s' h
    unfold bench_loop at h
    exact absurd h (by simp)
  | succ m ih =>
    intro s s' h
    unfold bench_loop at h
    rcases andThen_error h with h | ⟨s1, h1, h⟩
    · simp [checkedCall_error h]
    obtain ⟨-, rfl⟩ := checkedCall_ok h1
    rcases andThen_error h with h | ⟨s2, h2, h⟩
    · simp [checkedCall_error h, applyEff]
    obtain ⟨-, rfl⟩ := checkedCall_ok h2
    rcases andThen_error h with h | ⟨s3, h3, h⟩
    · simp [checkedCall_error h, applyEff]
    obtain ⟨-, rfl⟩ := checkedCall_ok h3
    rcases andThen_error h with h | ⟨s4, h4, h⟩
    · simp [checkedCall_error h, applyEff]
    obtain ⟨-, rfl⟩ := checkedCall_ok h4
    rcases andThen_error h with h | ⟨s5, h5, h⟩
    · simp [checkedCall_error h, applyEff]
    obtain ⟨-, rfl⟩ := checkedCall_ok h5
    have hrec := ih _ _ h
    simp only [applyEff, uncheckedCall] at hrec
    exact hrec

theorem run_error_not_freed (env : Nat → Bool) (n : Nat)
    (config : benchmark_config) (T : OutputType) (s' : RunState)
    (h : run_benchmark env n config T = .error s') :
    s'.bufferFreed = false := by
  unfold run_benchmark at h
  rcases andThen_error h with h | ⟨s1, h1, h⟩
  · simp [checkedCall_error h, initState]
  obtain ⟨-, rfl⟩ := checkedCall_ok h1
  rcases andThen_error h with h | ⟨s2, h2, h⟩
  · simp [checkedCall_error h, applyEff, uncheckedCall, initState]
  obtain ⟨-, rfl⟩ := checkedCall_ok h2
  rcases andThen_error h with h | ⟨s3, h3, h⟩
  · simp [checkedCall_error h, applyEff, uncheckedCall, initState]
  obtain ⟨-, rfl⟩ := checkedCall_ok h3
  rcases andThen_error h with h | ⟨s4, h4, h⟩
  · simp [checkedCall_error h, applyEff, uncheckedCall, initState]
  obtain ⟨-, rfl⟩ := checkedCall_ok h4
  rcases andThen_error h with h | ⟨s5, h5, h⟩
  · simp [checkedCall_error h, applyEff, uncheckedCall, initState]
  obtain ⟨-, rfl⟩ := checkedCall_ok h5
  rcases andThen_error h with h | ⟨s6, h6, h⟩
  · have hfr := bench_loop_error_freed env n _ _ h
    simp only [applyEff, uncheckedCall, initState] at hfr
    exact hfr
  have hfr6 := (bench_loop_ok env n _ _ h6).2.2.1
  simp only [applyEff, uncheckedCall, initState] at hfr6
  rcases andThen_error h with h | ⟨s7, h7, h⟩
  · simp [checkedCall_error h, applyEff, uncheckedCall, hfr6]
  obtain ⟨-, rfl⟩ := checkedCall_ok h7
  rcases andThen_error h with h | ⟨s8, h8, h⟩
  · simp [checkedCall_error h, applyEff, uncheckedCall, hfr6]
  obtain ⟨-, rfl⟩ := checkedCall_ok h8
  simp [checkedCall_error h, applyEff, uncheckedCall, hfr6]

/-! ### Claim C6 -/

/-- Counterexample to C6 as stated: when the stop-event synchronization of
the first measured iteration fails (checked call index 8), the run aborts
with the buffer still allocated, both events created, and nothing released —
the trailing `hipEventDestroy`/`hipFree` calls are skipped on this exit
path. -/
theorem release_skipped_on_failure_counterexample :
    isOk (run_benchmark (fail_at 8) 1 ⟨1⟩ .u32) = false
      ∧ (stateOf (run_benchmark (fail_at 8) 1 ⟨1⟩ .u32)).bufferAllocated = true
      ∧ (stateOf (run_benchmark (fail_at 8) 1 ⟨1⟩ .u32)).eventsCreated = 2
      ∧ (stateOf (run_benchmark (fail_at 8) 1 ⟨1⟩ .u32)).bufferFreed = false
      ∧ (stateOf (run_benchmark (fail_at 8) 1 ⟨1⟩ .u32)).eventsDestroyed
          = 0 := by
  decide

/-- C6 as amended: the two events and the device buffer are released
exactly on the fully successful exit path; on an early failure of generate,
an event operation or a synchronization, the run aborts immediately and the
device buffer (and any event created before the failure) is not released. -/
theorem resources_released_only_on_success (env : Nat → Bool) (n : Nat)
    (config : benchmark_config) (T : OutputType) :
    (∀ s, run_benchmark env n config T = .ok s →
        s.bufferFreed = true ∧ s.eventsDestroyed = 2)
      ∧ (∀ s, run_benchmark env n config T = .error s →
        s.bufferFreed = false) := by
  constructor
  · intro s h
    have hc := run_ok_char env n config T s h
    exact ⟨hc.2.2.1, hc.2.2.2.2.1⟩
  · intro s h
    exact run_error_not_freed env n config T s h

/-- Witness for C6 (amended): a fully successful run frees the buffer; a
run failing at the first stop-event synchronization does not. -/
theorem resources_released_only_on_success_witness :
    (stateOf (run_benchmark (fun _ => true) 1 ⟨1⟩ .u32)).bufferFreed = true
      ∧ (stateOf (run_benchmark (fail_at 8) 1 ⟨1⟩ .u32)).bufferFreed
          = false :=
  ⟨((resources_released_only_on_success (fun _ => true) 1 ⟨1⟩ .u32).1 _
      rfl).1,
   (resources_released_only_on_success (fail_at 8) 1 ⟨1⟩ .u32).2 _ rfl⟩

/-! ### Claim C7 -/

/-- C7: a successful run performs exactly one untimed warm-up generate
followed by a device synchronization before any measurement, and each of the
`n` measured iterations records the start event, generates, records the stop
event, synchronizes on the stop event, reads the elapsed time and reports
the iteration duration, in that order; every iteration reports exactly one
duration. -/
theorem warmup_and_iteration_protocol (env : Nat → Bool) (n : Nat)
    (config : benchmark_config) (T : OutputType) (s : RunState)
    (h : run_benchmark env n config T = .ok s) :
    s.trace = expected_trace n config T
      ∧ s.iterationTimesReported = n :=
  ⟨(run_ok_char env n config T s h).1,
   (run_ok_char env n config T s h).2.2.2.2.2.2.2⟩

/-- Witness for C7: a concrete all-success run with two measured
iterations. -/
theorem warmup_and_iteration_protocol_witness :
    run_benchmark (fun _ => true) 2 ⟨4⟩ .u32
        = .ok (stateOf (run_benchmark (fun _ => true) 2 ⟨4⟩ .u32))
      ∧ (stateOf (run_benchmark (fun _ => true) 2 ⟨4⟩ .u32)).trace
          = expected_trace 2 ⟨4⟩ .u32 :=
  ⟨rfl,
   (warmup_and_iteration_protocol (fun _ => true) 2 ⟨4⟩ .u32 _ rfl).1⟩

/-! ### Claim C8 -/

/-- C8: after the measured iterations of a successful run, the reported
totals are exactly `iterations × config.size × sizeof(T)` bytes and
`iterations × config.size` items. -/
theorem totals_after_iterations (env : Nat → Bool) (n : Nat)
    (config : benchmark_config) (T : OutputType) (s : RunState)
    (h : run_benchmark env n config T = .ok s) :
    s.bytesProcessed = some (n * config.size * sizeof_output T)
      ∧ s.itemsProcessed = some (n * config.size) :=
  ⟨(run_ok_char env n config T s h).2.2.2.2.2.1,
   (run_ok_char env n config T s h).2.2.2.2.2.2.1⟩

/-- Witness for C8: with three iterations of ten `unsigned long long`
elements, the totals are 240 bytes and 30 items. -/
theorem totals_after_iterations_witness :
    run_benchmark (fun _ => true) 3 ⟨10⟩ .u64
        = .ok (stateOf (run_benchmark (fun _ => true) 3 ⟨10⟩ .u64))
      ∧ (stateOf (run_benchmark (fun _ => true) 3 ⟨10⟩ .u64)).bytesProcessed
          = some 240
      ∧ (stateOf (run_benchmark (fun _ => true) 3 ⟨10⟩ .u64)).itemsProcessed
          = some 30 :=
  ⟨rfl,
   (totals_after_iterations (fun _ => true) 3 ⟨10⟩ .u64 _ rfl).1,
   (totals_after_iterations (fun _ => true) 3 ⟨10⟩ .u64 _ rfl).2⟩

end BenchmarkTuning
